import Mathlib

/-!
Verification of the client-side behavior implemented in `src/js/app.js`
(prdgo2). Each module's state and operations are shallowly embedded as
executable Lean definitions: machine floats become exact rationals, DOM
collections become lists, and JavaScript strings become `String` or
`List Char`. Definitions come first, theorems afterwards.
-/

set_option maxHeartbeats 1000000
set_option maxRecDepth 4096
set_option linter.unreachableTactic false
set_option linter.unusedTactic false

/-! ## String helpers mirroring JavaScript primitives -/

/-- JavaScript `String.prototype.split` with a single-character separator:
`"".split(s)` is `[""]`, and separators at the ends produce empty fragments. -/
def splitOnChar (sep : Char) : List Char → List (List Char)
  | [] => [[]]
  | c :: rest =>
    let r := splitOnChar sep rest
    if c = sep then [] :: r
    else
      match r with
      | [] => [[c]]
      | h :: t => (c :: h) :: t

/-- JavaScript `String.prototype.trim`: strip whitespace from both ends. -/
def trimChars (cs : List Char) : List Char :=
  ((cs.dropWhile Char.isWhitespace).reverse.dropWhile Char.isWhitespace).reverse

/-- Numeric value of a digit string. -/
def digitsVal (ds : List Char) : ℕ :=
  ds.foldl (fun a c => a * 10 + (c.toNat - Char.toNat (Char.ofNat 48))) 0

/-- Longest leading digit run, `none` when there is none. -/
def parseDigits (r : List Char) : Option ℕ :=
  let ds := r.takeWhile Char.isDigit
  if ds.isEmpty then none else some (digitsVal ds)

/-- JavaScript `parseInt` restricted to base 10 as used in the source: skip
leading whitespace, read an optional sign and a digit run; `none` models
`NaN`. -/
def parseIntJS (s : List Char) : Option ℤ :=
  match s.dropWhile Char.isWhitespace with
  | Char.ofNat 45 :: r => (parseDigits r).map (fun n => -(n : ℤ))
  | Char.ofNat 43 :: r => (parseDigits r).map (fun n => (n : ℤ))
  | r => (parseDigits r).map (fun n => (n : ℤ))

/-! ## Testimonials carousel (`class Testimonials`)

State is `currentIndex`; `cards.length` is `N`. The DOM work in
`updateCarousel` only toggles classes, so the operations are functions on
the index. -/

namespace Testimonials

/-- Source `prev()`:
`currentIndex = currentIndex === 0 ? cards.length - 1 : currentIndex - 1`. -/
def prev (N i : ℕ) : ℕ := if i = 0 then N - 1 else i - 1

/-- Source `next()`:
`currentIndex = currentIndex === cards.length - 1 ? 0 : currentIndex + 1`. -/
def next (N i : ℕ) : ℕ := if i = N - 1 then 0 else i + 1

/-- Source `goTo(index)`: `currentIndex = index`, unconditionally. The
previous index is ignored by the source; it is kept as an argument to model
the transition on the carousel state. -/
def goTo (_i index : ℕ) : ℕ := index

end Testimonials

/-! ## Hero particle simulation (`class HeroEffects`)

Particles are the records pushed by `createParticles`; `updateParticles`
advances each one by its velocity and flips the velocity sign on an axis
when the coordinate leaves `[0, canvas dimension]`. Float coordinates are
embedded as exact rationals. -/

/-- A particle as created by `HeroEffects.createParticles`. -/
structure Particle where
  x : ℚ
  y : ℚ
  size : ℚ
  speedX : ℚ
  speedY : ℚ
  opacity : ℚ
deriving DecidableEq

/-- One axis of the per-frame update: `x += speedX; if (x < 0 || x > bound)
speedX *= -1`. Takes and returns the pair (coordinate, speed). -/
def reflectStep (bound : ℚ) (xs : ℚ × ℚ) : ℚ × ℚ :=
  let x := xs.1 + xs.2
  (x, if x < 0 ∨ x > bound then -xs.2 else xs.2)

namespace HeroEffects

/-- Per-particle body of `updateParticles`, on a canvas of width `W` and
height `H`: both axes are updated independently by `reflectStep`. -/
def updateParticle (W H : ℚ) (p : Particle) : Particle :=
  let rx := reflectStep W (p.x, p.speedX)
  let ry := reflectStep H (p.y, p.speedY)
  { p with x := rx.1, speedX := rx.2, y := ry.1, speedY := ry.2 }

/-- Source `updateParticles()`: update every particle of the pool. -/
def updateParticles (W H : ℚ) (ps : List Particle) : List Particle :=
  ps.map (updateParticle W H)

/-- Counter animation duration (`const duration = 2000`). -/
def counterDuration : ℚ := 2000

/-- Quartic ease-out from `animateCounter`:
`easeOutQuart = 1 - Math.pow(1 - progress, 4)`. -/
def easeOutQuart (progress : ℚ) : ℚ := 1 - (1 - progress) ^ 4

/-- The value `animateCounter` writes at a given elapsed time:
`progress = Math.min(elapsed / duration, 1)` and
`current = Math.floor(easeOutQuart * target)`. -/
def counterValue (target : ℤ) (elapsed : ℚ) : ℤ :=
  ⌊easeOutQuart (min (elapsed / counterDuration) 1) * (target : ℚ)⌋

end HeroEffects

/-- Resting place of a particle inside the canvas rectangle. -/
abbrev inCanvas (W H : ℚ) (p : Particle) : Prop :=
  0 ≤ p.x ∧ p.x ≤ W ∧ 0 ≤ p.y ∧ p.y ≤ H

/-- One-axis invariant maintained by `reflectStep`: either the coordinate is
inside `[0, bound]`, or it has just overshot a wall and the (already
reflected) speed points back inside, by at most one step. -/
def goodAxis (bound x s : ℚ) : Prop :=
  (0 ≤ x ∧ x ≤ bound) ∨ (x < 0 ∧ 0 < s ∧ -s ≤ x) ∨ (bound < x ∧ s < 0 ∧ x ≤ bound - s)

/-! ## Portfolio filter (`class Portfolio`)

An item is represented by its `data-category` string (a comma-separated
category list); the filter state is the current filter, the current page and
the set of revealed items. `itemsPerPage` is fixed at 6 in the source. -/

namespace Portfolio

/-- Source `this.itemsPerPage = 6`. -/
def itemsPerPage : ℕ := 6

/-- Source `getFilteredItems()`: all items for the `all` filter, otherwise
the items whose comma-separated category list contains the filter. -/
def getFilteredItems (currentFilter : List Char) (items : List (List Char)) :
    List (List Char) :=
  if currentFilter = "all".toList then items
  else items.filter (fun it => (splitOnChar (Char.ofNat 44) it).contains currentFilter)

/-- Portfolio state: current filter, current page, and the items revealed so
far (in reveal order). -/
structure State where
  currentFilter : List Char
  currentPage : ℕ
  visible : List (List Char)
deriving DecidableEq

/-- Source `handleFilterClick` on a filter different from the current one,
followed by `filterItems()` once all staggered timers have fired: page
resets to 1, every item is hidden, then the first
`itemsPerPage * currentPage` filtered items are revealed. -/
def handleFilterClick (items : List (List Char)) (filt : List Char) : State :=
  { currentFilter := filt
    currentPage := 1
    visible := (getFilteredItems filt items).take (itemsPerPage * 1) }

/-- Source `loadMore()` once its staggered timers have fired: the page is
incremented and the slice
`filtered.slice((page-1)*itemsPerPage, page*itemsPerPage)` is additionally
revealed. -/
def loadMore (items : List (List Char)) (s : State) : State :=
  let newPage := s.currentPage + 1
  let filtered := getFilteredItems s.currentFilter items
  let startIndex := (newPage - 1) * itemsPerPage
  let endIndex := newPage * itemsPerPage
  { s with
    currentPage := newPage
    visible := s.visible ++ (filtered.drop startIndex).take (endIndex - startIndex) }

end Portfolio

/-! ## Contact form validation (`class ContactForm`)

Field values are `List Char`; a rule string like `required|minLength:3` is
split on `|`, each rule on `:`. JavaScript truthiness of a string is
non-emptiness; `parseInt` yielding `NaN` is modelled by `Option`. -/

/-- Character class `[^\s@]` of the email rule. -/
def isEmailChar (c : Char) : Bool := !c.isWhitespace && !(c == '@')

/-- Source regex `/^[^\s@]+@[^\s@]+\.[^\s@]+$/`: exactly one `@`, a
non-empty local part, and a domain part containing a dot that is neither
its first nor its last character, all characters outside `\s` and `@`. -/
def emailRegexMatch (value : List Char) : Bool :=
  match splitOnChar '@' value with
  | [x, y] =>
    !x.isEmpty && x.all isEmailChar && !y.isEmpty && y.all isEmailChar &&
      ((y.drop 1).dropLast.contains (Char.ofNat 46))
  | _ => false

/-- Source regex `/^[\+]?[1-9][\d]{0,15}$/` applied to
`value.replace(/\s/g, '')`: optional plus sign, a leading digit `1`–`9`,
then at most 15 further digits. -/
def phoneRegexMatch (value : List Char) : Bool :=
  let cs := value.filter (fun c => !c.isWhitespace)
  let cs2 := match cs with
    | Char.ofNat 43 :: r => r
    | r => r
  match cs2 with
  | c :: rest =>
    decide (Char.ofNat 49 ≤ c) && decide (c ≤ Char.ofNat 57) &&
      rest.all Char.isDigit && decide (rest.length ≤ 15)
  | [] => false

namespace ContactForm

/-- Source `this.validators.required`: `value.trim() !== ''`. -/
def validators.required (value : List Char) : Bool := !(trimChars value).isEmpty

/-- Source `this.validators.email`. -/
def validators.email (value : List Char) : Bool := emailRegexMatch value

/-- Source `this.validators.phone`. -/
def validators.phone (value : List Char) : Bool := phoneRegexMatch value

/-- Source `this.validators.minLength`: `value.length >= min`, where `min`
may be `NaN` (modelled `none`), in which case the comparison is false. -/
def validators.minLength (value : List Char) (m : Option ℤ) : Bool :=
  match m with
  | some m => decide ((value.length : ℤ) ≥ m)
  | none => false

/-- The rule loop of `validateField`: rules are checked in order and the
first failing rule makes the field invalid (`break`); a rule matching no
known validator is skipped. `value && ...` guards are JavaScript string
truthiness, i.e. non-emptiness. -/
def validateRules (value : List Char) : List (List Char) → Bool
  | [] => true
  | rule :: rest =>
    let parts := splitOnChar ':' rule
    let validator := parts.headD []
    let param := parts.getD 1 []
    if validator == "required".toList && !validators.required value then false
    else if validator == "email".toList && !value.isEmpty && !validators.email value then
      false
    else if validator == "phone".toList && !value.isEmpty && !validators.phone value then
      false
    else if validator == "minLength".toList && !value.isEmpty &&
        !validators.minLength value (parseIntJS param) then false
    else validateRules value rest

/-- Source `validateField(field)` reduced to its validity result: the rule
string is `field.dataset.validate`, the value is `field.value`. -/
def validateField (rulesStr value : String) : Bool :=
  validateRules value.toList (splitOnChar (Char.ofNat 124) rulesStr.toList)

/-- Source `validateForm()`: every input must validate (the source visits
every field to paint errors; the resulting flag is the conjunction). Each
field is a (rule string, value) pair. -/
def validateForm (fields : List (String × String)) : Bool :=
  fields.all (fun fld => validateField fld.1 fld.2)

/-- Contact form state touched by `handleSubmit`: the in-flight guard, the
fields, the transient message (text, css type), and a counter of started
submissions. -/
structure State where
  isSubmitting : Bool
  fields : List (String × String)
  message : Option (String × String)
  submissionsStarted : ℕ
deriving DecidableEq

/-- Synchronous prefix of `handleSubmit()`: return immediately while
`isSubmitting`; otherwise show an error message when validation fails, or
set the in-flight guard and start the (simulated) submission. -/
def handleSubmit (s : State) : State :=
  if s.isSubmitting then s
  else if !validateForm s.fields then
    { s with message := some ("Por favor, corrija os erros no formulário.", "error") }
  else
    { s with isSubmitting := true, submissionsStarted := s.submissionsStarted + 1 }

end ContactForm

/-! ## WhatsApp form (`class WhatsAppForm`) -/

/-- Upper-case hexadecimal digit. -/
def hexDigitUpper (n : ℕ) : Char :=
  if n < 10 then Char.ofNat (48 + n) else Char.ofNat (65 + (n - 10))

/-- UTF-8 bytes of a character, as `encodeURIComponent` encodes them. -/
def utf8Bytes (c : Char) : List ℕ :=
  let n := c.toNat
  if n < 128 then [n]
  else if n < 2048 then [192 + n / 64, 128 + n % 64]
  else if n < 65536 then [224 + n / 4096, 128 + (n / 64) % 64, 128 + n % 64]
  else [240 + n / 262144, 128 + (n / 4096) % 64, 128 + (n / 64) % 64, 128 + n % 64]

/-- Percent-encoding of one byte. -/
def percentEncodeByte (b : ℕ) : List Char :=
  [Char.ofNat 37, hexDigitUpper (b / 16), hexDigitUpper (b % 16)]

/-- Characters `encodeURIComponent` leaves unescaped:
alphanumerics and `- _ . ! ~ * ' ( )`. -/
def isURIUnreserved (c : Char) : Bool :=
  c.isAlphanum || c == Char.ofNat 45 || c == Char.ofNat 95 || c == Char.ofNat 46 ||
    c == Char.ofNat 33 || c == Char.ofNat 126 || c == Char.ofNat 42 ||
    c == Char.ofNat 39 || c == Char.ofNat 40 || c == Char.ofNat 41

/-- Host `encodeURIComponent`: unreserved characters pass through, every
other character is percent-encoded byte-wise in UTF-8. -/
def encodeURIComponent (s : String) : String :=
  String.mk (s.toList.flatMap fun c =>
    if isURIUnreserved c then [c] else (utf8Bytes c).flatMap percentEncodeByte)

namespace WhatsAppForm

/-- Source `this.phoneNumber = '5511914823015'`. -/
def phoneNumber : String := "5511914823015"

/-- Source `getFieldLabel(fieldName)`. -/
def getFieldLabel (fieldName : String) : String :=
  if fieldName = "name" then "Nome"
  else if fieldName = "email" then "Email"
  else if fieldName = "phone" then "Telefone"
  else if fieldName = "company" then "Empresa"
  else if fieldName = "service" then "Serviço"
  else if fieldName = "budget" then "Orçamento"
  else if fieldName = "message" then "Mensagem"
  else if fieldName = "project" then "Projeto"
  else fieldName

/-- Message building in `handleSubmit(form)`: header, one `*Label:* value`
line per field whose value is non-empty after trimming, then the footer.
`data` lists the form entries in form order. -/
def buildMessage (data : List (String × String)) : String :=
  (data.foldl (fun msg kv =>
      if (trimChars kv.2.toList).isEmpty then msg
      else msg ++ "*" ++ getFieldLabel kv.1 ++ ":* " ++ kv.2 ++ "\n")
    "Olá! Gostaria de solicitar um orçamento:\n\n") ++ "\nAguardo retorno. Obrigado!"

/-- Source `openWhatsApp(message)`: the URL opened in the new tab. -/
def whatsappURL (message : String) : String :=
  "https://wa.me/" ++ phoneNumber ++ "?text=" ++ encodeURIComponent message

end WhatsAppForm

/-! ## Storage wrapper (`const Storage`)

`localStorage` is an association list of string keys to string values.
`JSON.stringify`/`JSON.parse` are host built-ins, passed as an abstract
serializer pair; `JSON.parse` throwing is `none`. A read that throws is an
`Except.error`; an absent key is `Except.ok none` (JavaScript `null`). -/

/-- Host `localStorage.setItem` on the backing association list. -/
def setAssoc : List (String × String) → String → String → List (String × String)
  | [], k, v => [(k, v)]
  | (k0, v0) :: rest, k, v =>
    if k0 = k then (k0, v) :: rest else (k0, v0) :: setAssoc rest k v

/-- Host `localStorage.getItem` on the backing association list. -/
def getAssoc (store : List (String × String)) (k : String) : Option String :=
  (store.find? (fun kv => kv.1 = k)).map (fun kv => kv.2)

namespace Storage

/-- Source `Storage.set(key, value)`: `setItem(key, JSON.stringify(value))`
inside try/catch. `writeOk` is whether the host write succeeds (a quota
error throws); on failure the store is unchanged and `false` is returned. -/
def set {α : Type} (stringify : α → String) (writeOk : Bool)
    (store : List (String × String)) (key : String) (v : α) :
    List (String × String) × Bool :=
  if writeOk then (setAssoc store key (stringify v), true) else (store, false)

/-- Source `Storage.get(key, defaultValue)`: on a read exception or an
absent key the default is returned; `item ? JSON.parse(item) : defaultValue`
also yields the default for the falsy empty string; a parse exception is
caught and yields the default. -/
def get {α : Type} (parse : String → Option α)
    (readResult : Except Unit (Option String)) (defaultValue : α) : α :=
  match readResult with
  | Except.error _ => defaultValue
  | Except.ok none => defaultValue
  | Except.ok (some item) =>
    if item = "" then defaultValue else (parse item).getD defaultValue

end Storage

/-! # Theorems -/

/-! ## Testimonials lemmas -/

theorem Testimonials.next_eq_mod {N i : ℕ} (hi : i < N) :
    Testimonials.next N i = (i + 1) % N := by
  unfold Testimonials.next
  rcases Nat.lt_or_ge (i + 1) N with h | h
  · rw [if_neg (by omega), Nat.mod_eq_of_lt h]
  · have hiN : i = N - 1 := by omega
    rw [if_pos hiN]
    have hN : i + 1 = N := by omega
    rw [hN, Nat.mod_self]

theorem Testimonials.next_lt {N i : ℕ} (hN : 1 ≤ N) (hi : i < N) :
    Testimonials.next N i < N := by
  rw [Testimonials.next_eq_mod hi]
  exact Nat.mod_lt _ (by omega)

theorem Testimonials.next_iterate {N : ℕ} (hN : 1 ≤ N) (n : ℕ) :
    ∀ i, i < N → (Testimonials.next N)^[n] i = (i + n) % N := by
  induction n with
  | zero => intro i hi; simp [Nat.mod_eq_of_lt hi]
  | succ n ih =>
    intro i hi
    rw [Function.iterate_succ_apply, ih (Testimonials.next N i) (Testimonials.next_lt hN hi),
      Testimonials.next_eq_mod hi, Nat.mod_add_mod]
    congr 1
    omega

/-- C3: for every card count N ≥ 1 and every starting index below N, the
carousel's `next` applied N times returns the index to its starting value,
and `prev` undoes `next` and `next` undoes `prev`. -/
theorem C3_carousel_next_cycle_prev_inverse (N i : ℕ) (hN : 1 ≤ N) (hi : i < N) :
    (Testimonials.next N)^[N] i = i ∧
      Testimonials.prev N (Testimonials.next N i) = i ∧
      Testimonials.next N (Testimonials.prev N i) = i := by
  refine ⟨?_, ?_, ?_⟩
  · rw [Testimonials.next_iterate hN N i hi, Nat.add_mod_right, Nat.mod_eq_of_lt hi]
  · simp only [Testimonials.next, Testimonials.prev]
    split_ifs <;> first | omega | exact ‹False›.elim
  · simp only [Testimonials.next, Testimonials.prev]
    split_ifs <;> first | omega | exact ‹False›.elim

/-- Witness for C3 at N = 3 cards, starting index 1. -/
theorem C3_carousel_next_cycle_prev_inverse_witness :
    (Testimonials.next 3)^[3] 1 = 1 ∧
      Testimonials.prev 3 (Testimonials.next 3 1) = 1 ∧
      Testimonials.next 3 (Testimonials.prev 3 1) = 1 :=
  C3_carousel_next_cycle_prev_inverse 3 1 (by decide) (by decide)

/-- C4: starting from any index in `[0, N)`, `next` and `prev` land again in
`[0, N)`, and `goTo j` does so for every argument `j < N` it may be called
with (indicator clicks pass indicator indices, which the markup contract
keeps below the card count). -/
theorem C4_carousel_index_in_range (N i : ℕ) (hN : 1 ≤ N) (hi : i < N) :
    Testimonials.next N i < N ∧ Testimonials.prev N i < N ∧
      ∀ j, j < N → Testimonials.goTo i j < N := by
  refine ⟨Testimonials.next_lt hN hi, ?_, fun j hj => hj⟩
  simp only [Testimonials.prev]
  split_ifs <;> first | omega | exact ‹False›.elim

/-- Witness for C4 at N = 4 cards, index 3, goTo argument 2. -/
theorem C4_carousel_index_in_range_witness :
    Testimonials.next 4 3 < 4 ∧ Testimonials.prev 4 3 < 4 ∧
      Testimonials.goTo 3 2 < 4 :=
  ⟨(C4_carousel_index_in_range 4 3 (by decide) (by decide)).1,
   (C4_carousel_index_in_range 4 3 (by decide) (by decide)).2.1,
   (C4_carousel_index_in_range 4 3 (by decide) (by decide)).2.2 2 (by decide)⟩

/-! ## Hero particle lemmas -/

theorem reflectStep_goodAxis {bound : ℚ} {xs : ℚ × ℚ} (hs : |xs.2| ≤ bound)
    (h : goodAxis bound xs.1 xs.2) :
    goodAxis bound (reflectStep bound xs).1 (reflectStep bound xs).2 ∧
      |(reflectStep bound xs).2| = |xs.2| := by
  obtain ⟨x, s⟩ := xs
  simp only [reflectStep]
  obtain ⟨hs1, hs2⟩ := abs_le.mp hs
  split_ifs with hc
  · refine ⟨?_, abs_neg s⟩
    rcases h with ⟨h0, h1⟩ | ⟨h0, h1, h2⟩ | ⟨h0, h1, h2⟩
    · rcases hc with hc | hc
      · exact Or.inr (Or.inl ⟨hc, by linarith, by simp only [neg_neg]; linarith⟩)
      · exact Or.inr (Or.inr ⟨hc, by linarith, by linarith⟩)
    · exact absurd hc (by push_neg; constructor <;> linarith [le_abs_self s])
    · exact absurd hc (by push_neg; constructor <;> linarith [neg_abs_le s])
  · push_neg at hc
    exact ⟨Or.inl ⟨hc.1, hc.2⟩, rfl⟩


theorem reflectStep_iterate_goodAxis {bound : ℚ} {xs : ℚ × ℚ} (hs : |xs.2| ≤ bound)
    (h : goodAxis bound xs.1 xs.2) (n : ℕ) :
    goodAxis bound ((reflectStep bound)^[n] xs).1 ((reflectStep bound)^[n] xs).2 ∧
      |((reflectStep bound)^[n] xs).2| = |xs.2| := by
  induction n with
  | zero => exact ⟨h, rfl⟩
  | succ n ih =>
    rw [Function.iterate_succ_apply']
    obtain ⟨ih1, ih2⟩ := ih
    have hstep := @reflectStep_goodAxis bound ((reflectStep bound)^[n] xs)
      (by rw [ih2]; exact hs) ih1
    exact ⟨hstep.1, hstep.2.trans ih2⟩

theorem goodAxis_bounds {bound x s : ℚ} (hs : |s| ≤ bound) (h : goodAxis bound x s) :
    -|s| ≤ x ∧ x ≤ bound + |s| := by
  have h0 : (0 : ℚ) ≤ bound := le_trans (abs_nonneg s) hs
  rcases h with ⟨h1, h2⟩ | ⟨h1, h2, h3⟩ | ⟨h1, h2, h3⟩
  · exact ⟨by linarith [abs_nonneg s], by linarith [abs_nonneg s]⟩
  · rw [abs_of_pos h2]
    exact ⟨by linarith, by linarith⟩
  · rw [abs_of_neg h2]
    exact ⟨by linarith, by linarith⟩

theorem updateParticle_iterate_axes (W H : ℚ) (p : Particle) (n : ℕ) :
    ((HeroEffects.updateParticle W H)^[n] p).x = ((reflectStep W)^[n] (p.x, p.speedX)).1 ∧
      ((HeroEffects.updateParticle W H)^[n] p).speedX =
        ((reflectStep W)^[n] (p.x, p.speedX)).2 ∧
      ((HeroEffects.updateParticle W H)^[n] p).y = ((reflectStep H)^[n] (p.y, p.speedY)).1 ∧
      ((HeroEffects.updateParticle W H)^[n] p).speedY =
        ((reflectStep H)^[n] (p.y, p.speedY)).2 := by
  induction n with
  | zero => exact ⟨rfl, rfl, rfl, rfl⟩
  | succ n ih =>
    obtain ⟨h1, h2, h3, h4⟩ := ih
    simp only [Function.iterate_succ_apply']
    refine ⟨?_, ?_, ?_, ?_⟩ <;>
      simp only [HeroEffects.updateParticle, reflectStep, h1, h2, h3, h4]

/-- C1 counterexample: a pool-shaped particle (position inside the 100×100
canvas, speeds within the created range) leaves `[0, 100] × [0, 100]` after
a single `updateParticles` call: the reflection only flips the velocity
sign, it does not clamp the position, so the position overshoots the wall
on the very step that triggers the flip. -/
theorem C1_counterexample_particle_exits_canvas :
    inCanvas 100 100 ⟨1/10, 50, 2, -1/5, 1/10, 1/2⟩ ∧
      HeroEffects.updateParticles 100 100 [⟨1/10, 50, 2, -1/5, 1/10, 1/2⟩]
        = [⟨-1/10, 501/10, 2, 1/5, 1/10, 1/2⟩] ∧
      ¬ inCanvas 100 100 ⟨-1/10, 501/10, 2, 1/5, 1/10, 1/2⟩ := by
  refine ⟨by norm_num [inCanvas], ?_, by norm_num [inCanvas]⟩
  norm_num [HeroEffects.updateParticles, HeroEffects.updateParticle, reflectStep]

/-- C1 (amended): a particle that starts inside the canvas, with each speed
component no larger in magnitude than the corresponding canvas dimension,
stays within the canvas inflated by one velocity step on each side:
`[-|speedX|, W + |speedX|] × [-|speedY|, H + |speedY|]`, after any number of
`updateParticles` calls. -/
theorem C1_amended_particles_stay_in_inflated_canvas (W H : ℚ) (p : Particle)
    (hsx : |p.speedX| ≤ W) (hsy : |p.speedY| ≤ H) (hp : inCanvas W H p) (n : ℕ) :
    -|p.speedX| ≤ ((HeroEffects.updateParticle W H)^[n] p).x ∧
      ((HeroEffects.updateParticle W H)^[n] p).x ≤ W + |p.speedX| ∧
      -|p.speedY| ≤ ((HeroEffects.updateParticle W H)^[n] p).y ∧
      ((HeroEffects.updateParticle W H)^[n] p).y ≤ H + |p.speedY| := by
  obtain ⟨hx0, hx1, hy0, hy1⟩ := hp
  obtain ⟨ex, _, ey, _⟩ := updateParticle_iterate_axes W H p n
  have hX := @reflectStep_iterate_goodAxis W (p.x, p.speedX) hsx (Or.inl ⟨hx0, hx1⟩) n
  have hY := @reflectStep_iterate_goodAxis H (p.y, p.speedY) hsy (Or.inl ⟨hy0, hy1⟩) n
  have bX := goodAxis_bounds (by rw [hX.2]; exact hsx) hX.1
  have bY := goodAxis_bounds (by rw [hY.2]; exact hsy) hY.1
  rw [hX.2] at bX
  rw [hY.2] at bY
  rw [ex, ey]
  exact ⟨bX.1, bX.2, bY.1, bY.2⟩

/-- Witness for the amended C1 at the counterexample particle, two update
steps on a 100×100 canvas. -/
theorem C1_amended_particles_stay_in_inflated_canvas_witness :
    -|(-1/5 : ℚ)| ≤ ((HeroEffects.updateParticle 100 100)^[2] ⟨1/10, 50, 2, -1/5, 1/10, 1/2⟩).x ∧
      ((HeroEffects.updateParticle 100 100)^[2] ⟨1/10, 50, 2, -1/5, 1/10, 1/2⟩).x
        ≤ 100 + |(-1/5 : ℚ)| ∧
      -|(1/10 : ℚ)| ≤ ((HeroEffects.updateParticle 100 100)^[2] ⟨1/10, 50, 2, -1/5, 1/10, 1/2⟩).y ∧
      ((HeroEffects.updateParticle 100 100)^[2] ⟨1/10, 50, 2, -1/5, 1/10, 1/2⟩).y
        ≤ 100 + |(1/10 : ℚ)| :=
  C1_amended_particles_stay_in_inflated_canvas 100 100 ⟨1/10, 50, 2, -1/5, 1/10, 1/2⟩
    (by norm_num [abs_le]) (by norm_num [abs_le]) (by norm_num [inCanvas]) 2

/-- C2: for target 100 the counter writes `floor(easeOutQuart(progress)·100)`
at every frame, the written value is monotone non-decreasing in the elapsed
time, and once the elapsed time reaches the duration (progress = 1) the
written value is exactly 100. -/
theorem C2_counter_monotone_and_reaches_target :
    (∀ e : ℚ, HeroEffects.counterValue 100 e
        = ⌊HeroEffects.easeOutQuart (min (e / HeroEffects.counterDuration) 1)
            * ((100 : ℤ) : ℚ)⌋) ∧
      (∀ e1 e2 : ℚ, e1 ≤ e2 →
        HeroEffects.counterValue 100 e1 ≤ HeroEffects.counterValue 100 e2) ∧
      (∀ e : ℚ, HeroEffects.counterDuration ≤ e → HeroEffects.counterValue 100 e = 100) := by
  refine ⟨fun e => rfl, fun e1 e2 h => ?_, fun e he => ?_⟩
  · unfold HeroEffects.counterValue
    apply Int.floor_le_floor
    apply mul_le_mul_of_nonneg_right _ (by norm_num : (0:ℚ) ≤ ((100 : ℤ) : ℚ))
    unfold HeroEffects.easeOutQuart
    have hp : min (e1 / HeroEffects.counterDuration) 1
        ≤ min (e2 / HeroEffects.counterDuration) 1 := by
      refine min_le_min ?_ le_rfl
      exact (div_le_div_right (by norm_num [HeroEffects.counterDuration])).mpr h
    have h2 : min (e2 / HeroEffects.counterDuration) 1 ≤ 1 := min_le_right _ _
    have hpow := pow_le_pow_left
      (by linarith : (0:ℚ) ≤ 1 - min (e2 / HeroEffects.counterDuration) 1)
      (by linarith : 1 - min (e2 / HeroEffects.counterDuration) 1
        ≤ 1 - min (e1 / HeroEffects.counterDuration) 1) 4
    linarith
  · have hmin : min (e / HeroEffects.counterDuration) 1 = 1 :=
      min_eq_right ((one_le_div (by norm_num [HeroEffects.counterDuration])).mpr he)
    unfold HeroEffects.counterValue
    rw [hmin]
    unfold HeroEffects.easeOutQuart
    norm_num

/-- Witness for C2: frame equation at elapsed 0, monotonicity from elapsed 0
to 1000, and exact completion at elapsed 2500 ≥ 2000. -/
theorem C2_counter_monotone_and_reaches_target_witness :
    HeroEffects.counterValue 100 0
        = ⌊HeroEffects.easeOutQuart (min ((0:ℚ) / HeroEffects.counterDuration) 1)
            * ((100 : ℤ) : ℚ)⌋ ∧
      HeroEffects.counterValue 100 0 ≤ HeroEffects.counterValue 100 1000 ∧
      HeroEffects.counterValue 100 2500 = 100 :=
  ⟨C2_counter_monotone_and_reaches_target.1 0,
   C2_counter_monotone_and_reaches_target.2.1 0 1000 (by norm_num),
   C2_counter_monotone_and_reaches_target.2.2 2500
     (by norm_num [HeroEffects.counterDuration])⟩

/-! ## Portfolio lemmas -/

theorem Portfolio.loadMore_fields (items : List (List Char)) (s : Portfolio.State) :
    (Portfolio.loadMore items s).currentFilter = s.currentFilter ∧
      (Portfolio.loadMore items s).currentPage = s.currentPage + 1 ∧
      (Portfolio.loadMore items s).visible = s.visible ++
        ((Portfolio.getFilteredItems s.currentFilter items).drop
            ((s.currentPage + 1 - 1) * Portfolio.itemsPerPage)).take
          ((s.currentPage + 1) * Portfolio.itemsPerPage
            - (s.currentPage + 1 - 1) * Portfolio.itemsPerPage) :=
  ⟨rfl, rfl, rfl⟩

theorem Portfolio.loadMore_iterate_visible (items : List (List Char)) (f : List Char)
    (m : ℕ) :
    ((Portfolio.loadMore items)^[m] (Portfolio.handleFilterClick items f)).currentFilter = f ∧
      ((Portfolio.loadMore items)^[m] (Portfolio.handleFilterClick items f)).currentPage
        = m + 1 ∧
      ((Portfolio.loadMore items)^[m] (Portfolio.handleFilterClick items f)).visible
        = (Portfolio.getFilteredItems f items).take (Portfolio.itemsPerPage * (m + 1)) := by
  induction m with
  | zero => exact ⟨rfl, rfl, rfl⟩
  | succ m ih =>
    obtain ⟨h1, h2, h3⟩ := ih
    rw [Function.iterate_succ_apply']
    obtain ⟨f1, f2, f3⟩ := Portfolio.loadMore_fields items
      ((Portfolio.loadMore items)^[m] (Portfolio.handleFilterClick items f))
    refine ⟨by rw [f1, h1], by rw [f2, h2], ?_⟩
    rw [f3, h1, h2, h3]
    have hsub : m + 1 + 1 - 1 = m + 1 := by omega
    rw [hsub]
    have hdiff : (m + 1 + 1) * Portfolio.itemsPerPage - (m + 1) * Portfolio.itemsPerPage
        = Portfolio.itemsPerPage := by
      rw [← Nat.sub_mul]
      simp
    have hsplit : Portfolio.itemsPerPage * (m + 1 + 1)
        = Portfolio.itemsPerPage * (m + 1) + Portfolio.itemsPerPage := by ring
    rw [hdiff, hsplit, List.take_add, mul_comm (m + 1) Portfolio.itemsPerPage]

/-- C5: filtering by a category carried by exactly k of the items shows
`min k itemsPerPage` items before any load-more, and
`min k (itemsPerPage · page)` items after `page - 1` load-more clicks. -/
theorem C5_portfolio_visible_window (items : List (List Char)) (f : List Char)
    (hf : f ≠ "all".toList) (page : ℕ) (hp : 1 ≤ page) :
    (Portfolio.handleFilterClick items f).visible.length
        = min ((items.filter
              (fun it => (splitOnChar (Char.ofNat 44) it).contains f)).length)
            Portfolio.itemsPerPage ∧
      ((Portfolio.loadMore items)^[page - 1]
            (Portfolio.handleFilterClick items f)).visible.length
        = min ((items.filter
              (fun it => (splitOnChar (Char.ofNat 44) it).contains f)).length)
            (Portfolio.itemsPerPage * page) := by
  have hfe : Portfolio.getFilteredItems f items
      = items.filter (fun it => (splitOnChar (Char.ofNat 44) it).contains f) := by
    unfold Portfolio.getFilteredItems
    rw [if_neg hf]
  obtain ⟨-, -, h3⟩ := Portfolio.loadMore_iterate_visible items f (page - 1)
  constructor
  · show ((Portfolio.getFilteredItems f items).take
        (Portfolio.itemsPerPage * 1)).length = _
    rw [List.length_take, hfe, mul_one, Nat.min_comm]
  · rw [h3]
    have hpage : page - 1 + 1 = page := by omega
    rw [hpage, List.length_take, hfe, Nat.min_comm]

/-- Witness for C5: eight items of which seven carry category `web`, filter
`web`, page 2 (one load-more): 6 visible before, 7 after. -/
theorem C5_portfolio_visible_window_witness :
    (Portfolio.handleFilterClick
          ["web".toList, "web,app".toList, "app".toList, "web".toList, "web".toList,
            "web".toList, "web".toList, "web,design".toList] "web".toList).visible.length
        = min ((["web".toList, "web,app".toList, "app".toList, "web".toList, "web".toList,
              "web".toList, "web".toList, "web,design".toList].filter
              (fun it => (splitOnChar (Char.ofNat 44) it).contains "web".toList)).length)
            Portfolio.itemsPerPage ∧
      ((Portfolio.loadMore
              ["web".toList, "web,app".toList, "app".toList, "web".toList, "web".toList,
                "web".toList, "web".toList, "web,design".toList])^[2 - 1]
            (Portfolio.handleFilterClick
              ["web".toList, "web,app".toList, "app".toList, "web".toList, "web".toList,
                "web".toList, "web".toList, "web,design".toList] "web".toList)).visible.length
        = min ((["web".toList, "web,app".toList, "app".toList, "web".toList, "web".toList,
              "web".toList, "web".toList, "web,design".toList].filter
              (fun it => (splitOnChar (Char.ofNat 44) it).contains "web".toList)).length)
            (Portfolio.itemsPerPage * 2) :=
  C5_portfolio_visible_window
    ["web".toList, "web,app".toList, "app".toList, "web".toList, "web".toList,
      "web".toList, "web".toList, "web,design".toList] "web".toList
    (by decide) 2 (by decide)

/-! ## Contact form lemmas -/

theorem ContactForm.validateRules_nil_value (rules : List (List Char))
    (h : ∀ rule ∈ rules,
      (splitOnChar (Char.ofNat 58) rule).headD [] ≠ "required".toList) :
    ContactForm.validateRules [] rules = true := by
  induction rules with
  | nil => rfl
  | cons rule rest ih =>
    have hr := h rule (by simp)
    have ih2 := ih (fun r hr2 => h r (by simp [hr2]))
    simp only [ContactForm.validateRules, List.isEmpty_nil, Bool.not_true, Bool.and_false,
      beq_eq_false_iff_ne.mpr hr, Bool.false_and, if_false, ih2]
    decide

/-- C6: rules are evaluated in declaration order with the first failure
deciding invalidity; `required|minLength:3` rejects the empty string (via
`required`) and `ab` (via `minLength:3`) and accepts `abc`. -/
theorem C6_validateField_required_minLength :
    ContactForm.validateField "required|minLength:3" "" = false ∧
      ContactForm.validateField "required|minLength:3" "ab" = false ∧
      ContactForm.validateField "required|minLength:3" "abc" = true := by
  refine ⟨?_, ?_, ?_⟩ <;> decide

/-- C9: a field whose rule list has no `required` rule validates the empty
string, because the `email`, `phone` and `minLength` branches are guarded by
the truthiness of the value and an empty value skips them all. -/
theorem C9_non_required_rules_accept_empty (rulesStr : String)
    (h : ∀ rule ∈ splitOnChar (Char.ofNat 124) rulesStr.toList,
      (splitOnChar (Char.ofNat 58) rule).headD [] ≠ "required".toList) :
    ContactForm.validateField rulesStr "" = true := by
  unfold ContactForm.validateField
  exact ContactForm.validateRules_nil_value _ h

/-- Witness for C9 on the rule list `email|minLength:3`. -/
theorem C9_non_required_rules_accept_empty_witness :
    ContactForm.validateField "email|minLength:3" "" = true :=
  C9_non_required_rules_accept_empty "email|minLength:3" (by decide)

/-- C7: while `isSubmitting` is set, `handleSubmit` leaves the form state
untouched — no validation result is surfaced, no message is shown, and no
second submission is started. -/
theorem C7_submit_noop_while_in_flight (s : ContactForm.State)
    (h : s.isSubmitting = true) : ContactForm.handleSubmit s = s := by
  unfold ContactForm.handleSubmit
  rw [h]
  simp

/-- Witness for C7: an in-flight state with a field that would fail
validation is returned unchanged (in particular no error message appears
and the submission counter stays put). -/
theorem C7_submit_noop_while_in_flight_witness :
    ContactForm.handleSubmit ⟨true, [("required", "")], none, 1⟩
      = ⟨true, [("required", "")], none, 1⟩ :=
  C7_submit_noop_while_in_flight ⟨true, [("required", "")], none, 1⟩ rfl

/-- C8: the WhatsApp submission for name `Ana` and phone `11999999999`
produces a message carrying the lines `*Nome:* Ana` and
`*Telefone:* 11999999999`; a field that is empty after trimming is omitted
entirely; and the deep link URL-encodes the message behind the configured
`wa.me` phone number. -/
theorem C8_whatsapp_message_and_link :
    WhatsAppForm.buildMessage [("name", "Ana"), ("phone", "11999999999")]
        = "Olá! Gostaria de solicitar um orçamento:\n\n" ++ "*Nome:* Ana" ++ "\n"
          ++ "*Telefone:* 11999999999" ++ "\n" ++ "\nAguardo retorno. Obrigado!" ∧
      WhatsAppForm.buildMessage
          [("name", "Ana"), ("email", "   "), ("phone", "11999999999")]
        = WhatsAppForm.buildMessage [("name", "Ana"), ("phone", "11999999999")] ∧
      WhatsAppForm.whatsappURL
          (WhatsAppForm.buildMessage [("name", "Ana"), ("phone", "11999999999")])
        = "https://wa.me/5511914823015?text=Ol%C3%A1!%20Gostaria%20de%20solicitar%20um%20or%C3%A7amento%3A%0A%0A*Nome%3A*%20Ana%0A*Telefone%3A*%2011999999999%0A%0AAguardo%20retorno.%20Obrigado!" := by
  refine ⟨?_, ?_, ?_⟩ <;> decide

/-! ## Storage lemmas -/

theorem getAssoc_setAssoc (store : List (String × String)) (key val : String) :
    getAssoc (setAssoc store key val) key = some val := by
  induction store with
  | nil => simp [setAssoc, getAssoc]
  | cons kv rest ih =>
    obtain ⟨k0, v0⟩ := kv
    unfold setAssoc
    by_cases hk : k0 = key
    · rw [if_pos hk]
      unfold getAssoc
      rw [List.find?_cons_of_pos _ (by simp [hk])]
      rfl
    · rw [if_neg hk]
      unfold getAssoc
      rw [List.find?_cons_of_neg _ (by simp [hk])]
      exact ih

/-- C10: after a successful `Storage.set` of a value whose serialization
parses back to itself, `Storage.get` on the same key returns that value and
not the default; and `Storage.get` returns the supplied default whenever the
parse fails, the read throws, or the key is absent. (`JSON.parse` rejects
the empty string, hypothesis `hempty`.) -/
theorem C10_storage_roundtrip_and_defaults {α : Type} (stringify : α → String)
    (parse : String → Option α) (store : List (String × String)) (key : String)
    (v defaultValue : α)
    (hround : parse (stringify v) = some v) (hempty : parse "" = none) :
    Storage.get parse
        (Except.ok (getAssoc (Storage.set stringify true store key v).1 key))
        defaultValue = v ∧
      (∀ item, parse item = none →
        Storage.get parse (Except.ok (some item)) defaultValue = defaultValue) ∧
      Storage.get parse (Except.error ()) defaultValue = defaultValue ∧
      Storage.get parse (Except.ok none) defaultValue = defaultValue := by
  refine ⟨?_, ?_, rfl, rfl⟩
  · have hset : (Storage.set stringify true store key v).1
        = setAssoc store key (stringify v) := by
      simp [Storage.set]
    rw [hset, getAssoc_setAssoc]
    have hne : stringify v ≠ "" := by
      intro he
      rw [he, hempty] at hround
      exact Option.noConfusion hround
    show (if stringify v = "" then defaultValue
      else (parse (stringify v)).getD defaultValue) = v
    rw [if_neg hne, hround]
    rfl
  · intro item hitem
    show (if item = "" then defaultValue else (parse item).getD defaultValue)
      = defaultValue
    by_cases hi : item = ""
    · rw [if_pos hi]
    · rw [if_neg hi, hitem]
      rfl

/-- Witness for C10 with the serializer pair (identity, reject-empty) and
the value `"5"` stored over an existing entry under key `"k"`. -/
theorem C10_storage_roundtrip_and_defaults_witness :
    Storage.get (fun s => if s = "" then none else some s)
        (Except.ok (getAssoc
          (Storage.set (fun v : String => v) true [("k", "old")] "k" "5").1 "k")) "d"
      = "5" ∧
    Storage.get (fun s => if s = "" then none else some s) (Except.ok (some "")) "d"
      = "d" ∧
    Storage.get (fun s => if s = "" then none else some s) (Except.error ()) "d" = "d" ∧
    Storage.get (fun s => if s = "" then none else some s) (Except.ok none) "d" = "d" :=
  ⟨(C10_storage_roundtrip_and_defaults (fun v : String => v)
      (fun s => if s = "" then none else some s) [("k", "old")] "k" "5" "d"
      (by decide) (by decide)).1,
   (C10_storage_roundtrip_and_defaults (fun v : String => v)
      (fun s => if s = "" then none else some s) [("k", "old")] "k" "5" "d"
      (by decide) (by decide)).2.1 "" (by decide),
   (C10_storage_roundtrip_and_defaults (fun v : String => v)
      (fun s => if s = "" then none else some s) [("k", "old")] "k" "5" "d"
      (by decide) (by decide)).2.2.1,
   (C10_storage_roundtrip_and_defaults (fun v : String => v)
      (fun s => if s = "" then none else some s) [("k", "old")] "k" "5" "d"
      (by decide) (by decide)).2.2.2⟩
